import Mathlib

/-!
# Verification of the tetris-game core engine

Shallow embedding of `src/settings.py`, `src/tetrimino.py` and
`src/game_logic.py`.  Python lists are Lean `List`s; Python integer
indexing (including the negative-index wrap-around and the `IndexError`
exception) is modelled by `pyGet`/`pySet` returning `Option`; functions
that can raise return `Option`.  The engine's sound objects are modelled
as play counters inside the state, and `random.choice` is modelled by
passing the chosen shape explicitly.
-/

namespace Tetris

/-! ## Python list indexing semantics -/

/-- Python `l[i]` for an integer index: non-negative indices are direct,
negative indices wrap around from the end, anything out of range raises
(`none`). -/
def pyGet {α : Type} (l : List α) (i : Int) : Option α :=
  if 0 ≤ i then l.get? i.toNat
  else if 0 ≤ (l.length : Int) + i then l.get? ((l.length : Int) + i).toNat
  else none

/-- Python `l[i] = a` for an integer index, with the same index semantics
as `pyGet`; returns the updated list or `none` on `IndexError`. -/
def pySet {α : Type} (l : List α) (i : Int) (a : α) : Option (List α) :=
  if 0 ≤ i then
    if i.toNat < l.length then some (l.set i.toNat a) else none
  else if 0 ≤ (l.length : Int) + i then
    some (l.set ((l.length : Int) + i).toNat a)
  else none

/-! ## settings.py -/

def SCREEN_WIDTH : Nat := 400
def SCREEN_HEIGHT : Nat := 800
def CELL_SIZE : Nat := 40
def GRID_WIDTH : Nat := SCREEN_WIDTH / CELL_SIZE
def GRID_HEIGHT : Nat := SCREEN_HEIGHT / CELL_SIZE
def LEVEL_CHANGE_LINES : Nat := 10
def LEVEL_SPEED_INCREMENT : Int := 10

/-- The seven tetrimino shape kinds of `settings.TETRIMINOS`. -/
inductive Shape where
  | I | O | T | S | Z | J | L
  deriving DecidableEq, Repr

/-- The rotation matrices of `settings.TETRIMINOS` (the colour component
of each `(matrix, color)` pair in the source, which never influences the
logic, is dropped). -/
def TETRIMINOS : Shape → List (List (List Nat))
  | .I => [[[1], [1], [1], [1]],
           [[1, 1, 1, 1]]]
  | .O => [[[2, 2], [2, 2]]]
  | .T => [[[0, 3, 0], [3, 3, 3]],
           [[3, 0], [3, 3], [3, 0]],
           [[3, 3, 3], [0, 3, 0]],
           [[0, 3], [3, 3], [0, 3]]]
  | .S => [[[0, 4, 4], [4, 4, 0]],
           [[4, 0], [4, 4], [0, 4]]]
  | .Z => [[[5, 5, 0], [0, 5, 5]],
           [[0, 5], [5, 5], [5, 0]]]
  | .J => [[[6, 0, 0], [6, 6, 6]],
           [[6, 6], [6, 0], [6, 0]],
           [[6, 6, 6], [0, 0, 6]],
           [[0, 6], [0, 6], [6, 6]]]
  | .L => [[[0, 0, 7], [7, 7, 7]],
           [[7, 0], [7, 0], [7, 7]],
           [[7, 7, 7], [7, 0, 0]],
           [[7, 7], [0, 7], [0, 7]]]

/-! ## Tetrimino.can_fit (tetrimino.py lines 76-97) -/

/-- One iteration of the guard
`if r >= len(self.grid) or c < 0 or c >= len(self.grid[0]) or self.grid[r][c]`:
`some true` means the cell is allowed, `some false` means the placement is
rejected, `none` means the Python expression raises.  The four disjuncts
are evaluated left to right with short-circuiting, exactly as in Python;
`self.grid[r][c]` uses Python indexing, so a negative `r` wraps around. -/
def checkCell (grid : List (List Nat)) (r c : Int) : Option Bool :=
  if (grid.length : Int) ≤ r then some false
  else if c < 0 then some false
  else
    match grid.head? with
    | none => none
    | some row0 =>
      if (row0.length : Int) ≤ c then some false
      else
        match pyGet grid r with
        | none => none
        | some rowr =>
          match pyGet rowr c with
          | none => none
          | some v => some (v == 0)

/-- The inner loop of `can_fit` over one matrix line: `j` is the running
`enumerate` index; cells with value `0` are skipped (`if cell > 0`). -/
def canFitRow (grid : List (List Nat)) (r col : Int) :
    Nat → List Nat → Option Bool
  | _, [] => some true
  | j, cell :: rest =>
    if 0 < cell then
      match checkCell grid r (col + (j : Int)) with
      | none => none
      | some false => some false
      | some true => canFitRow grid r col (j + 1) rest
    else canFitRow grid r col (j + 1) rest

/-- The outer loop of `can_fit` over the matrix lines: `i` is the running
`enumerate` index, each line is checked at absolute row `row + i`. -/
def canFitShape (grid : List (List Nat)) (row col : Int) :
    Nat → List (List Nat) → Option Bool
  | _, [] => some true
  | i, line :: rest =>
    match canFitRow grid (row + (i : Int)) col 0 line with
    | none => none
    | some false => some false
    | some true => canFitShape grid row col (i + 1) rest

/-- `Tetrimino.can_fit(row, col, rotation)`: looks up
`self.rotations[rotation][0]` and runs the two nested loops; `none`
models a raised exception (bad rotation index or Python `IndexError`
inside the loop). -/
def canFit (grid : List (List Nat)) (rotations : List (List (List Nat)))
    (row col : Int) (rotation : Nat) : Option Bool :=
  match rotations.get? rotation with
  | none => none
  | some shape => canFitShape grid row col 0 shape

/-! ## Tetrimino (tetrimino.py) -/

/-- The mutable attributes of a `Tetrimino` instance that the logic
reads: the rotation table of its shape, the current rotation index, the
grid it collides against, and its `[row, col]` position. -/
structure Tetrimino where
  rotations : List (List (List Nat))
  rotation : Nat
  grid : List (List Nat)
  pos_row : Int
  pos_col : Int
  deriving DecidableEq, Repr

/-- `Tetrimino.rotate(current_time, last_rotation_time, rotation_delay,
rotate_sound)`: returns the updated piece, whether the rotate sound was
played, and the returned timestamp.  `soundPresent` models the truthiness
of the `rotate_sound` argument.  `none` models the `ZeroDivisionError` of
`% 0` on an empty rotation table or an exception inside `can_fit`. -/
def Tetrimino.rotate (t : Tetrimino) (current_time last_rotation_time rotation_delay : Int)
    (soundPresent : Bool) : Option (Tetrimino × Bool × Int) :=
  if rotation_delay < current_time - last_rotation_time then
    if t.rotations.length = 0 then none
    else
      let next := (t.rotation + 1) % t.rotations.length
      match canFit t.grid t.rotations t.pos_row t.pos_col next with
      | none => none
      | some true => some ({ t with rotation := next }, soundPresent, current_time)
      | some false => some (t, false, last_rotation_time)
  else some (t, false, last_rotation_time)

/-- `Tetrimino.get_current_shape()`: `self.rotations[self.rotation][0]`;
`none` models the `IndexError` on an invalid rotation index. -/
def getShape (rotations : List (List (List Nat))) (rotation : Nat) :
    Option (List (List Nat)) :=
  rotations.get? rotation

/-! ## GameLogic state (game_logic.py lines 49-68) -/

/-- The engine state owned by `GameLogic`.  The active tetrimino's fields
are inlined (`piece_*`); its `grid` attribute always aliases the engine's
`grid` at every point where the engine uses it, so the grid is stored
once.  The two sound objects are modelled by play counters plus the
truthiness flag of the `rotate_sound` constructor argument. -/
structure GameState where
  grid : List (List Nat)
  score : Nat
  lines_cleared : Nat
  level : Nat
  piece_rotations : List (List (List Nat))
  piece_rotation : Nat
  piece_row : Int
  piece_col : Int
  game_over : Bool
  is_paused : Bool
  drop_speed : Int
  soft_drop_speed : Int
  move_speed : Int
  rotation_delay : Int
  last_drop_time : Int
  last_move_time : Int
  last_rotation_time : Int
  break_line_plays : Nat
  rotate_plays : Nat
  rotate_sound_present : Bool
  deriving DecidableEq, Repr

/-- The command set consumed by `GameLogic.update` (membership of the
four command names in the `commands` set). -/
structure Commands where
  move_left : Bool
  move_right : Bool
  move_down : Bool
  rotate : Bool
  deriving DecidableEq, Repr

def noCommands : Commands := ⟨false, false, false, false⟩

/-! ## GameLogic methods -/

/-- `GameLogic.new_tetrimino` with the `random.choice` result passed
explicitly: builds `Tetrimino(shape, self.grid)` (rotation 0, position
`[0, 4]`) and sets `game_over` when `can_fit(0, 4)` fails. -/
def newTetrimino (shape : Shape) (s : GameState) : Option GameState :=
  let rots := TETRIMINOS shape
  match canFit s.grid rots 0 4 0 with
  | none => none
  | some fits =>
    some { s with piece_rotations := rots, piece_rotation := 0,
                  piece_row := 0, piece_col := 4,
                  game_over := if fits then s.game_over else true }

/-- `GameLogic.reset_game` (lines 77-86): zeroes score, lines and level,
spawns a new tetrimino, then clears the `game_over` and `is_paused`
flags.  Note that the source does not touch `self.grid` or
`self.drop_speed`. -/
def resetGame (shape : Shape) (s : GameState) : Option GameState :=
  let s1 := { s with score := 0, lines_cleared := 0, level := 1 }
  match newTetrimino shape s1 with
  | none => none
  | some s2 => some { s2 with game_over := false, is_paused := false }

/-- `GameLogic.adjust_game_speed`:
`drop_speed = max(100, drop_speed - LEVEL_SPEED_INCREMENT * (level - 1))`. -/
def adjustGameSpeed (s : GameState) : GameState :=
  { s with drop_speed := max 100 (s.drop_speed - LEVEL_SPEED_INCREMENT * ((s.level : Int) - 1)) }

/-- `GameLogic.update_level`: recomputes
`1 + lines_cleared // LEVEL_CHANGE_LINES` and, only when that exceeds the
current level, commits it and adjusts the speed. -/
def updateLevel (s : GameState) : GameState :=
  let new_level := 1 + s.lines_cleared / LEVEL_CHANGE_LINES
  if s.level < new_level then adjustGameSpeed { s with level := new_level }
  else s

/-- The inner loop of `place_tetrimino` over one matrix line:
`self.grid[r][c] = cell` for each cell with `cell > 0`, with Python index
semantics on both levels. -/
def placeRow (g : List (List Nat)) (r col : Int) :
    Nat → List Nat → Option (List (List Nat))
  | _, [] => some g
  | j, cell :: rest =>
    if 0 < cell then
      match pyGet g r with
      | none => none
      | some rowr =>
        match pySet rowr (col + (j : Int)) cell with
        | none => none
        | some rowr2 =>
          match pySet g r rowr2 with
          | none => none
          | some g2 => placeRow g2 r col (j + 1) rest
    else placeRow g r col (j + 1) rest

/-- The outer loop of `place_tetrimino` over the matrix lines. -/
def placeShape (g : List (List Nat)) (row col : Int) :
    Nat → List (List Nat) → Option (List (List Nat))
  | _, [] => some g
  | i, line :: rest =>
    match placeRow g (row + (i : Int)) col 0 line with
    | none => none
    | some g2 => placeShape g2 row col (i + 1) rest

/-- `GameLogic.place_tetrimino` (lines 185-193): writes every non-empty
cell of the current shape into the grid at the piece's position. -/
def placeTetrimino (s : GameState) : Option GameState :=
  match getShape s.piece_rotations s.piece_rotation with
  | none => none
  | some shape =>
    match placeShape s.grid s.piece_row s.piece_col 0 shape with
    | none => none
    | some g2 => some { s with grid := g2 }

/-- `GameLogic.clear_lines` (lines 195-212): keeps the rows containing a
`0` in order, counts the others, plays the break-line sound when at least
one row was cleared, prepends that many empty rows of width `GRID_WIDTH`,
and bumps `lines_cleared` and `score` (`score += cleared ** 2`). -/
def clearLines (s : GameState) : GameState :=
  let kept := s.grid.filter (fun row => row.contains 0)
  let cleared := s.grid.countP (fun row => !(row.contains 0))
  { s with grid := List.replicate cleared (List.replicate GRID_WIDTH 0) ++ kept,
           lines_cleared := s.lines_cleared + cleared,
           score := s.score + cleared ^ 2,
           break_line_plays := s.break_line_plays + (if 0 < cleared then 1 else 0) }

/-- `can_fit` called on the engine's current tetrimino with the default
(current) rotation. -/
def canFitS (s : GameState) (row col : Int) : Option Bool :=
  canFit s.grid s.piece_rotations row col s.piece_rotation

/-- `GameLogic.drop_tetrimino` (lines 169-183): if the piece fits one row
down, move it down; if it then cannot fit one further row down, place it,
clear lines, update the level, spawn the next piece and re-check game
over; returns whether the piece moved. -/
def dropTetrimino (nextShape : Shape) (s : GameState) : Option (GameState × Bool) :=
  match canFitS s (s.piece_row + 1) s.piece_col with
  | none => none
  | some false => some (s, false)
  | some true =>
    let s1 := { s with piece_row := s.piece_row + 1 }
    match canFitS s1 (s1.piece_row + 1) s1.piece_col with
    | none => none
    | some true => some (s1, true)
    | some false =>
      match placeTetrimino s1 with
      | none => none
      | some s2 =>
        let s4 := updateLevel (clearLines s2)
        match newTetrimino nextShape s4 with
        | none => none
        | some s5 =>
          match canFit s5.grid s5.piece_rotations 0 4 0 with
          | none => none
          | some true => some (s5, true)
          | some false => some ({ s5 with game_over := true }, true)

/-- `GameLogic.attempt_to_drop` (lines 159-167): when `drop_tetrimino`
reports no movement, place the piece, clear lines (without a level
update) and spawn the next piece; always stamps `last_drop_time`. -/
def attemptToDrop (nextShape : Shape) (current_time : Int) (s : GameState) :
    Option GameState :=
  match dropTetrimino nextShape s with
  | none => none
  | some (s1, dropped) =>
    if dropped then some { s1 with last_drop_time := current_time }
    else
      match placeTetrimino s1 with
      | none => none
      | some s2 =>
        let s3 := clearLines s2
        match newTetrimino nextShape s3 with
        | none => none
        | some s4 => some { s4 with last_drop_time := current_time }

/-- The first if-statement of `handle_moves`:
`if 'move_left' in commands and can_fit(row, col - 1): col -= 1`. -/
def moveLeftStep (cmds : Commands) (s : GameState) : Option GameState :=
  if cmds.move_left then
    match canFitS s s.piece_row (s.piece_col - 1) with
    | none => none
    | some true => some { s with piece_col := s.piece_col - 1 }
    | some false => some s
  else some s

/-- The second if-statement of `handle_moves`, evaluated on the state the
first one produced:
`if 'move_right' in commands and can_fit(row, col + 1): col += 1`. -/
def moveRightStep (cmds : Commands) (s : GameState) : Option GameState :=
  if cmds.move_right then
    match canFitS s s.piece_row (s.piece_col + 1) with
    | none => none
    | some true => some { s with piece_col := s.piece_col + 1 }
    | some false => some s
  else some s

/-- `GameLogic.handle_moves` (lines 131-140): on an eligible tick, try
`move_left` against `col - 1`, then `move_right` against the possibly
updated `col + 1`, then stamp `last_move_time`. -/
def handleMoves (current_time : Int) (cmds : Commands) (s : GameState) :
    Option GameState :=
  if s.move_speed < current_time - s.last_move_time then
    match moveLeftStep cmds s with
    | none => none
    | some s1 =>
      match moveRightStep cmds s1 with
      | none => none
      | some s2 => some { s2 with last_move_time := current_time }
  else some s

/-- `GameLogic.handle_rotation` (lines 142-147): delegates to
`Tetrimino.rotate` with the engine's throttle fields and stores the
returned timestamp. -/
def handleRotation (current_time : Int) (cmds : Commands) (s : GameState) :
    Option GameState :=
  if cmds.rotate then
    match Tetrimino.rotate
        ⟨s.piece_rotations, s.piece_rotation, s.grid, s.piece_row, s.piece_col⟩
        current_time s.last_rotation_time s.rotation_delay s.rotate_sound_present with
    | none => none
    | some (tet, played, newLast) =>
      some { s with piece_rotation := tet.rotation,
                    last_rotation_time := newLast,
                    rotate_plays := s.rotate_plays + (if played then 1 else 0) }
  else some s

/-- `GameLogic.handle_automatic_drop` (lines 149-157): soft-drop throttle
when `move_down` is held, gravity throttle otherwise. -/
def handleAutomaticDrop (nextShape : Shape) (current_time : Int) (cmds : Commands)
    (s : GameState) : Option GameState :=
  if cmds.move_down then
    if s.soft_drop_speed < current_time - s.last_drop_time then
      attemptToDrop nextShape current_time s
    else some s
  else if s.drop_speed < current_time - s.last_drop_time then
    attemptToDrop nextShape current_time s
  else some s

/-- `GameLogic.update` (lines 113-122): skips everything when the game is
over or paused, otherwise processes input (moves, then rotation) and the
automatic drop; `current_time` is the sampled `pygame.time.get_ticks()`
and `nextShape` the `random.choice` outcome of a potential respawn. -/
def update (cmds : Commands) (current_time : Int) (nextShape : Shape)
    (s : GameState) : Option GameState :=
  if s.game_over || s.is_paused then some s
  else
    match handleMoves current_time cmds s with
    | none => none
    | some s1 =>
      match handleRotation current_time cmds s1 with
      | none => none
      | some s2 => handleAutomaticDrop nextShape current_time cmds s2

/-- `GameLogic.__init__` (lines 49-68): the engine state at start, with
the three timestamps sampled from the clock (`t0`). -/
def initState (shape : Shape) (t0 : Int) (rotateSoundPresent : Bool) : GameState :=
  { grid := List.replicate GRID_HEIGHT (List.replicate GRID_WIDTH 0)
    score := 0
    lines_cleared := 0
    level := 1
    piece_rotations := TETRIMINOS shape
    piece_rotation := 0
    piece_row := 0
    piece_col := 4
    game_over := false
    is_paused := false
    drop_speed := 1000
    soft_drop_speed := 50
    move_speed := 100
    rotation_delay := 200
    last_drop_time := t0
    last_move_time := t0
    last_rotation_time := t0
    break_line_plays := 0
    rotate_plays := 0
    rotate_sound_present := rotateSoundPresent }

/-! ## Spec-side definitions

These definitions follow the wording of the specification (not the
source); they exist to be compared with the source-derived definitions
above. -/

/-- Spec: a row is "full" iff every cell is non-empty. -/
def isFullRow (row : List Nat) : Bool :=
  row.all (fun c => c != 0)

/-- Spec: the number of full rows of a grid. -/
def fullRowCount (g : List (List Nat)) : Nat :=
  g.countP isFullRow

/-- Spec: "the Grid already reports that cell occupied".  A coordinate
with `row < 0` or outside the grid is not occupied. -/
def specOccupied (grid : List (List Nat)) (r c : Int) : Bool :=
  if 0 ≤ r ∧ 0 ≤ c then
    match grid.get? r.toNat with
    | none => false
    | some row =>
      match row.get? c.toNat with
      | none => false
      | some v => v != 0
  else false

/-- Spec: one absolute coordinate is acceptable iff it does not have
`column < 0`, `column >= grid width`, `row >= grid height`, and is not
occupied; `row < 0` is never a reason for rejection. -/
def specCellB (grid : List (List Nat)) (r c : Int) : Bool :=
  decide (0 ≤ c) && decide (c < ((grid.headD []).length : Int)) &&
    decide (r < (grid.length : Int)) && !(specOccupied grid r c)

/-- Spec: `can_fit` succeeds iff every non-empty cell of the rotation's
matrix maps to an acceptable absolute coordinate
`(row + local_row, col + local_col)`. -/
def specCanFit (grid : List (List Nat)) (shape : List (List Nat))
    (row col : Int) : Bool :=
  shape.enum.all fun p =>
    (p.2.enum).all fun q =>
      q.2 == 0 || specCellB grid (row + (p.1 : Int)) (col + (q.1 : Int))

/-- All rows of the grid have the width of its first row (true of every
grid the program builds). -/
def UniformWidth (grid : List (List Nat)) : Prop :=
  ∀ row ∈ grid, row.length = (grid.headD []).length

instance (g : List (List Nat)) : Decidable (UniformWidth g) := by
  unfold UniformWidth; infer_instance

/-! ## Helper lemmas -/

theorem contains_zero_eq_not_isFullRow (row : List Nat) :
    row.contains 0 = !(isFullRow row) := by
  unfold isFullRow
  induction row with
  | nil => rfl
  | cons a t ih =>
    rw [List.all_cons, List.contains_cons, Bool.not_and, ih]
    by_cases h : a = 0
    · subst h; rfl
    · have h1 : (0 == a) = false := by simpa using Ne.symm h
      have h2 : (a != 0) = true := by simpa using h
      rw [h1, h2]; rfl

theorem clearLines_cleared_eq (g : List (List Nat)) :
    g.countP (fun row => !(row.contains 0)) = fullRowCount g := by
  unfold fullRowCount
  induction g with
  | nil => rfl
  | cons r t ih =>
    rw [List.countP_cons, List.countP_cons, ih, contains_zero_eq_not_isFullRow]
    cases isFullRow r <;> rfl

theorem clearLines_kept_eq (g : List (List Nat)) :
    g.filter (fun row => row.contains 0) = g.filter (fun row => !(isFullRow row)) := by
  apply List.filter_congr
  intro row _
  exact contains_zero_eq_not_isFullRow row

/-! ## C2: line clearing -/

/-- C2: `GameLogic.clear_lines` removes exactly the rows in which every
cell is non-empty, preserves the relative order of the remaining rows,
prepends that many all-empty rows at the top, and adds the number of
removed rows to `lines_cleared`. -/
theorem clearLines_removes_exactly_full_rows (s : GameState) :
    (clearLines s).grid =
      List.replicate (fullRowCount s.grid) (List.replicate GRID_WIDTH 0)
        ++ s.grid.filter (fun row => !(isFullRow row)) ∧
    (clearLines s).lines_cleared = s.lines_cleared + fullRowCount s.grid := by
  unfold clearLines
  refine ⟨?_, ?_⟩
  · simp only
    rw [clearLines_cleared_eq, clearLines_kept_eq]
  · simp only
    rw [clearLines_cleared_eq]

/-! ## C6: scoring -/

/-- C6: each `clear_lines` pass adds exactly the square of the number of
full rows to the score, and invokes the line-clear sound notification
exactly when that number is positive (so a pass clearing zero rows adds
zero and plays nothing). -/
theorem clearLines_score_and_sound (s : GameState) :
    (clearLines s).score = s.score + (fullRowCount s.grid) ^ 2 ∧
    (clearLines s).break_line_plays =
      s.break_line_plays + (if 0 < fullRowCount s.grid then 1 else 0) := by
  unfold clearLines
  constructor <;> simp only <;> rw [clearLines_cleared_eq]

/-! ## C8: paused / game-over frames -/

/-- C8: when the engine is paused or game-over, the per-frame update
returns the state unchanged — grid, active tetrimino, score, lines,
level, drop interval and all three last-action timestamps included. -/
theorem update_noop_when_paused_or_over (cmds : Commands) (t : Int)
    (nxt : Shape) (s : GameState)
    (h : s.game_over = true ∨ s.is_paused = true) :
    update cmds t nxt s = some s := by
  unfold update
  rcases h with h | h <;> simp [h]

/-- Witness for `update_noop_when_paused_or_over` at a concrete paused
state. -/
theorem update_noop_witness :
    update noCommands 5000 Shape.I
        { initState Shape.O 0 true with is_paused := true }
      = some { initState Shape.O 0 true with is_paused := true } :=
  update_noop_when_paused_or_over noCommands 5000 Shape.I _ (Or.inr rfl)

/-! ## C5: rotation throttle -/

/-- C5: `Tetrimino.rotate` is a no-op returning `last_rotation_time`
when `current_time - last_rotation_time <= rotation_delay`; past the
threshold it computes `(rotation + 1) mod rotation_count` and either
commits it, fires the notification (when the sound object is present)
and returns `current_time`, or — when `can_fit` rejects the geometry —
leaves everything unchanged and returns the original
`last_rotation_time`. -/
theorem rotate_characterization (t : Tetrimino) (ct lt delay : Int) (sp : Bool) :
    (ct - lt ≤ delay → t.rotate ct lt delay sp = some (t, false, lt)) ∧
    (delay < ct - lt → 0 < t.rotations.length →
      (canFit t.grid t.rotations t.pos_row t.pos_col
          ((t.rotation + 1) % t.rotations.length) = some true →
        t.rotate ct lt delay sp =
          some ({ t with rotation := (t.rotation + 1) % t.rotations.length }, sp, ct)) ∧
      (canFit t.grid t.rotations t.pos_row t.pos_col
          ((t.rotation + 1) % t.rotations.length) = some false →
        t.rotate ct lt delay sp = some (t, false, lt))) := by
  unfold Tetrimino.rotate
  refine ⟨fun h => ?_, fun h hlen => ?_⟩
  · rw [if_neg (not_lt.mpr h)]
  · rw [if_pos h, if_neg (Nat.pos_iff_ne_zero.mp hlen)]
    exact ⟨fun hfit => by simp only [hfit], fun hfit => by simp only [hfit]⟩

/-- A T-piece at the origin of an empty 4 × 4 grid. -/
def wTet : Tetrimino :=
  ⟨TETRIMINOS Shape.T, 0, List.replicate 4 (List.replicate 4 0), 0, 0⟩

/-- Witness for `rotate_characterization`: a throttled attempt
(elapsed 100 ≤ 150) is a no-op, and an eligible attempt
(elapsed 200 > 150) with fitting geometry commits the rotation, plays
the sound and returns the current time. -/
theorem rotate_characterization_witness :
    Tetrimino.rotate wTet 900 800 150 true = some (wTet, false, 800) ∧
    Tetrimino.rotate wTet 1000 800 150 true =
      some ({ wTet with rotation := (wTet.rotation + 1) % wTet.rotations.length },
            true, 1000) :=
  ⟨(rotate_characterization wTet 900 800 150 true).1 (by decide),
   (((rotate_characterization wTet 1000 800 150 true).2 (by decide) (by decide)).1
     (by decide))⟩

/-! ## C1 counterexample: negative rows and Python index wrap-around -/

/-- A 20 × 10 grid whose only occupied cell is `(19, 4)` (bottom row). -/
def wrapGrid : List (List Nat) :=
  (List.replicate 19 (List.replicate 10 0)) ++ [[0, 0, 0, 0, 1, 0, 0, 0, 0, 0]]

/-- C1 counterexample: the O-piece at `(row = -1, col = 4)` satisfies
every condition the claim lists (columns in range, rows below the top of
the grid, no occupied cell at any of its coordinates with `row ≥ 0`), so
per the claim `can_fit` must accept it — but the source evaluates
`self.grid[-1][4]`, which Python wraps around to the occupied bottom-row
cell `(19, 4)`, and rejects the placement. -/
theorem canFit_negative_row_cex :
    canFit wrapGrid (TETRIMINOS Shape.O) (-1) 4 0 = some false ∧
    specCanFit wrapGrid ((TETRIMINOS Shape.O).headD []) (-1) 4 = true := by
  decide

/-! ## C3 counterexample: the lock is not deferred -/

/-- An O-piece two rows above its resting place on an empty grid. -/
def C3state : GameState :=
  { initState Shape.O 0 true with piece_row := 17 }

/-- C3 counterexample: `can_fit(row+1, col)` succeeds at `C3state`, so
per the claim the drop step must only move the piece down and leave the
grid untouched, deferring the lock to the next drop attempt — but
`drop_tetrimino` writes the piece into the grid and respawns at `(0, 4)`
within the same step. -/
theorem drop_locks_in_same_step_cex :
    canFitS C3state (C3state.piece_row + 1) C3state.piece_col = some true ∧
    (dropTetrimino Shape.I C3state).map
        (fun p => (decide (p.1.grid = C3state.grid), p.1.piece_row,
                   p.1.piece_col, p.2))
      = some (false, 0, 4, true) := by
  decide

/-! ## C4: reset_game does not reinitialize the grid or the speed -/

/-- A 20 × 10 grid with two occupied cells in the bottom row. -/
def dirtyGrid : List (List Nat) :=
  (List.replicate 19 (List.replicate 10 0)) ++ [[1, 1, 0, 0, 0, 0, 0, 0, 0, 0]]

/-- A mid-game state: dirty grid, accelerated drop speed, nonzero score
and lines, paused and game-over. -/
def C4state : GameState :=
  { initState Shape.O 0 true with
      grid := dirtyGrid, score := 100, lines_cleared := 30, level := 4,
      drop_speed := 600, game_over := true, is_paused := true }

/-- C4: `reset_game` zeroes score, lines, level and the two flags, but
leaves the (non-empty) grid and the accelerated `drop_speed = 600`
untouched, while the engine's initial drop speed is 1000 — contradicting
the claimed (and the method's own documented) full reinitialization. -/
theorem reset_game_partial_reinit :
    (resetGame Shape.O C4state).map
        (fun s => (s.score, s.lines_cleared, s.level)) = some (0, 0, 1) ∧
    (resetGame Shape.O C4state).map
        (fun s => (s.game_over, s.is_paused)) = some (false, false) ∧
    (resetGame Shape.O C4state).map
        (fun s => (decide (s.grid = C4state.grid), s.drop_speed))
      = some (true, 600) ∧
    C4state.grid ≠ List.replicate GRID_HEIGHT (List.replicate GRID_WIDTH 0) ∧
    (initState Shape.O 0 true).drop_speed = 1000 := by
  decide

/-! ## C7 counterexample: a fallback lock skips the level update -/

/-- Rows 0 and 1 full except columns 4-5, an obstacle at `(2, 4)`. -/
def C7grid : List (List Nat) :=
  [[1, 1, 1, 1, 0, 0, 1, 1, 1, 1],
   [1, 1, 1, 1, 0, 0, 1, 1, 1, 1],
   [0, 0, 0, 0, 1, 0, 0, 0, 0, 0]] ++ List.replicate 17 (List.replicate 10 0)

/-- An engine state satisfying the claimed level invariant
(`level = 1 = 1 + 9 / 10`), with the O-piece at spawn unable to move
down: the next gravity tick locks it through `attempt_to_drop`'s
fallback path. -/
def C7state : GameState :=
  { initState Shape.O 0 true with grid := C7grid, lines_cleared := 9 }

/-- C7 counterexample: the level invariant holds before the frame, the
frame's drop locks the piece and clears two rows
(`lines_cleared` 9 → 11), but the fallback lock path in
`attempt_to_drop` never calls `update_level`, so afterwards
`level = 1 ≠ 1 + 11 / 10 = 2`. -/
theorem level_invariant_cex :
    C7state.level = 1 + C7state.lines_cleared / LEVEL_CHANGE_LINES ∧
    (update noCommands 2000 Shape.O C7state).map
        (fun s => (s.lines_cleared, s.level,
                   decide (s.level = 1 + s.lines_cleared / LEVEL_CHANGE_LINES)))
      = some (11, 1, false) := by
  decide

/-! ## can_fit characterization on non-negative rows -/

theorem pyGet_nonneg {α : Type} (l : List α) (i : Int) (h : 0 ≤ i) :
    pyGet l i = l.get? i.toNat := by
  unfold pyGet; rw [if_pos h]

theorem checkCell_eq_spec (grid : List (List Nat)) (r c : Int)
    (hu : UniformWidth grid) (hr : 0 ≤ r) :
    checkCell grid r c = some (specCellB grid r c) := by
  unfold checkCell specCellB specOccupied
  by_cases h1 : (grid.length : Int) ≤ r
  · rw [if_pos h1, decide_eq_false (not_lt.mpr h1), Bool.and_false, Bool.false_and]
  · rw [if_neg h1]
    push_neg at h1
    by_cases h2 : c < 0
    · rw [if_pos h2, decide_eq_false (not_le.mpr h2), Bool.false_and, Bool.false_and,
        Bool.false_and]
    · rw [if_neg h2]
      push_neg at h2
      cases grid with
      | nil =>
        exfalso
        simp only [List.length_nil, Nat.cast_zero] at h1
        omega
      | cons row0 rest =>
        simp only [List.head?_cons, List.headD_cons]
        by_cases h3 : ((row0.length : Int)) ≤ c
        · rw [if_pos h3, decide_eq_false (not_lt.mpr h3), Bool.and_false, Bool.false_and,
            Bool.false_and]
        · rw [if_neg h3]
          push_neg at h3
          have hlt : r.toNat < (row0 :: rest).length := by
            simp only [List.length_cons] at h1 ⊢; omega
          obtain ⟨rowr, hrowr⟩ : ∃ rowr, (row0 :: rest).get? r.toNat = some rowr := by
            rw [List.get?_eq_get hlt]; exact ⟨_, rfl⟩
          have hlenr : rowr.length = row0.length := by
            have := hu rowr (List.get?_mem hrowr)
            simpa using this
          have hclt : c.toNat < rowr.length := by
            rw [hlenr]; omega
          obtain ⟨v, hv⟩ : ∃ v, rowr.get? c.toNat = some v := by
            rw [List.get?_eq_get hclt]; exact ⟨_, rfl⟩
          rw [pyGet_nonneg _ _ hr]
          simp only [hrowr]
          rw [pyGet_nonneg rowr c h2]
          simp only [hv]
          rw [decide_eq_true h2, decide_eq_true h3, decide_eq_true h1,
            if_pos ⟨hr, h2⟩]
          cases v with
          | zero => rfl
          | succ n => rfl

theorem canFitRow_eq_spec (grid : List (List Nat)) (r col : Int)
    (hu : UniformWidth grid) (hr : 0 ≤ r) :
    ∀ (j : Nat) (cells : List Nat),
      canFitRow grid r col j cells =
        some ((cells.enumFrom j).all fun q =>
          q.2 == 0 || specCellB grid r (col + (q.1 : Int))) := by
  intro j cells
  induction cells generalizing j with
  | nil => rfl
  | cons cell rest ih =>
    rw [List.enumFrom_cons]
    by_cases hc : 0 < cell
    · have hcell0 : (cell == 0) = false := by
        simp [Nat.pos_iff_ne_zero.mp hc]
      have hcc := checkCell_eq_spec grid r (col + (j : Int)) hu hr
      cases hs : specCellB grid r (col + (j : Int)) with
      | false =>
        rw [hs] at hcc
        simp only [canFitRow, if_pos hc, hcc]
        simp [hcell0, hs]
      | true =>
        rw [hs] at hcc
        simp only [canFitRow, if_pos hc, hcc]
        rw [ih (j + 1)]
        simp [hcell0, hs]
    · have hcz : cell = 0 := by omega
      subst hcz
      simp only [canFitRow, if_neg hc]
      rw [ih (j + 1)]
      simp

theorem canFitShape_eq_spec (grid : List (List Nat)) (row col : Int)
    (hu : UniformWidth grid) (hrow : 0 ≤ row) :
    ∀ (i : Nat) (lines : List (List Nat)),
      canFitShape grid row col i lines =
        some ((lines.enumFrom i).all fun p =>
          (p.2.enum).all fun q =>
            q.2 == 0 || specCellB grid (row + (p.1 : Int)) (col + (q.1 : Int))) := by
  intro i lines
  induction lines generalizing i with
  | nil => rfl
  | cons line rest ih =>
    have hri : (0 : Int) ≤ row + (i : Int) := by omega
    have hrr := canFitRow_eq_spec grid (row + (i : Int)) col hu hri 0 line
    cases hs : (line.enumFrom 0).all
        (fun q => q.2 == 0 || specCellB grid (row + (i : Int)) (col + (q.1 : Int))) with
    | false =>
      rw [hs] at hrr
      simp only [canFitShape, List.enumFrom_cons, hrr]
      simp [List.enum, hs]
    | true =>
      rw [hs] at hrr
      simp only [canFitShape, List.enumFrom_cons, hrr]
      rw [ih (i + 1)]
      simp [List.enum, hs]

/-- `can_fit` agrees with the spec-side acceptance predicate on every
uniform-width grid whenever `row ≥ 0` (so that Python's negative-index
wrap-around cannot fire). -/
theorem canFit_eq_spec (grid : List (List Nat))
    (rotations : List (List (List Nat))) (shape : List (List Nat))
    (row col : Int) (rotation : Nat)
    (hu : UniformWidth grid) (hrow : 0 ≤ row)
    (hrot : rotations.get? rotation = some shape) :
    canFit grid rotations row col rotation = some (specCanFit grid shape row col) := by
  unfold canFit specCanFit
  simp only [hrot]
  rw [canFitShape_eq_spec grid row col hu hrow 0 shape]
  rfl

/-! ## C1 (amended): can_fit characterization -/

/-- C1 (amended): for every uniform-width grid, rotation matrix and
position with `row ≥ 0`, `can_fit` returns exactly the spec's verdict —
false iff some non-empty cell maps to `column < 0`,
`column ≥ grid width`, `row ≥ grid height`, or an occupied cell (and it
raises no exception).  The restriction to `row ≥ 0` is forced by
`canFit_negative_row_cex`: for `row < 0` the bounds checks still do not
reject, but the occupancy read `grid[row + i][col + j]` applies Python
negative-index wrap-around, so it is checked against row
`height + (row + i)` and can reject a placement the claim says is
accepted. -/
theorem canFit_bounds_characterization (grid : List (List Nat))
    (rotations : List (List (List Nat))) (shape : List (List Nat))
    (row col : Int) (rotation : Nat)
    (hu : UniformWidth grid) (hrow : 0 ≤ row)
    (hrot : rotations.get? rotation = some shape) :
    canFit grid rotations row col rotation = some (specCanFit grid shape row col) :=
  canFit_eq_spec grid rotations shape row col rotation hu hrow hrot

/-- Witness for `canFit_bounds_characterization` on a concrete grid,
piece and in-range position. -/
theorem canFit_bounds_characterization_witness :
    canFit wrapGrid (TETRIMINOS Shape.O) 18 4 0
      = some (specCanFit wrapGrid [[2, 2], [2, 2]] 18 4) :=
  canFit_bounds_characterization wrapGrid (TETRIMINOS Shape.O)
    [[2, 2], [2, 2]] 18 4 0 (by decide) (by decide) rfl

/-! ## C9: spawning -/

theorem TETRIMINOS_first (sh : Shape) :
    (TETRIMINOS sh).get? 0 = some ((TETRIMINOS sh).headD []) := by
  cases sh <;> rfl

/-- C9: for every uniform-width grid, spawning places the new piece at
the canonical position `(0, 4)` with rotation 0, never raises an
exception (the `can_fit(0, 4)` probe always returns a verdict), and sets
`game_over` exactly when the piece cannot fit there (the flag is only
ever set, never cleared, so from a non-game-over state the flag after
spawn is true iff the piece did not fit). -/
theorem newTetrimino_spawn_spec (shape : Shape) (s : GameState)
    (hu : UniformWidth s.grid) :
    ∃ fits, canFit s.grid (TETRIMINOS shape) 0 4 0 = some fits ∧
      newTetrimino shape s = some
        { s with piece_rotations := TETRIMINOS shape, piece_rotation := 0,
                 piece_row := 0, piece_col := 4,
                 game_over := s.game_over || !fits } ∧
      (s.game_over = false → ((s.game_over || !fits) = true ↔ fits = false)) := by
  have h := canFit_eq_spec s.grid (TETRIMINOS shape) ((TETRIMINOS shape).headD [])
    0 4 0 hu (by norm_num) (TETRIMINOS_first shape)
  refine ⟨_, h, ?_, ?_⟩
  · unfold newTetrimino
    simp only [h]
    cases hb : specCanFit s.grid ((TETRIMINOS shape).headD []) 0 4 <;> simp [hb]
  · intro hgo
    rw [hgo]
    cases specCanFit s.grid ((TETRIMINOS shape).headD []) 0 4 <;> simp

/-- A grid whose only occupied cell is the spawn cell `(0, 4)`. -/
def blockedGrid : List (List Nat) :=
  [[0, 0, 0, 0, 5, 0, 0, 0, 0, 0]] ++ List.replicate 19 (List.replicate 10 0)

/-- A running state over `blockedGrid`. -/
def C9state : GameState :=
  { initState Shape.I 0 true with grid := blockedGrid }

/-- Witness for `newTetrimino_spawn_spec`: spawning the O-piece over a
grid whose spawn cell is occupied. -/
theorem newTetrimino_spawn_spec_witness :
    ∃ fits, canFit C9state.grid (TETRIMINOS Shape.O) 0 4 0 = some fits ∧
      newTetrimino Shape.O C9state = some
        { C9state with piece_rotations := TETRIMINOS Shape.O, piece_rotation := 0,
                       piece_row := 0, piece_col := 4,
                       game_over := C9state.game_over || !fits } ∧
      (C9state.game_over = false →
        ((C9state.game_over || !fits) = true ↔ fits = false)) :=
  newTetrimino_spawn_spec Shape.O C9state (by decide)

/-! ## Field-preservation lemmas for the engine methods -/

theorem clearLines_fields (s : GameState) :
    (clearLines s).level = s.level ∧ (clearLines s).drop_speed = s.drop_speed ∧
    (clearLines s).piece_rotations = s.piece_rotations ∧
    (clearLines s).piece_rotation = s.piece_rotation ∧
    (clearLines s).piece_row = s.piece_row ∧ (clearLines s).piece_col = s.piece_col ∧
    (clearLines s).game_over = s.game_over ∧ (clearLines s).is_paused = s.is_paused :=
  ⟨rfl, rfl, rfl, rfl, rfl, rfl, rfl, rfl⟩

theorem updateLevel_fields (s : GameState) :
    (updateLevel s).grid = s.grid ∧
    (updateLevel s).lines_cleared = s.lines_cleared ∧
    (updateLevel s).score = s.score ∧
    (updateLevel s).piece_rotations = s.piece_rotations ∧
    (updateLevel s).piece_rotation = s.piece_rotation ∧
    (updateLevel s).piece_row = s.piece_row ∧
    (updateLevel s).piece_col = s.piece_col ∧
    (updateLevel s).game_over = s.game_over := by
  simp only [updateLevel, adjustGameSpeed]
  split <;> exact ⟨rfl, rfl, rfl, rfl, rfl, rfl, rfl, rfl⟩

theorem updateLevel_inv (s : GameState)
    (h : s.level ≤ 1 + s.lines_cleared / LEVEL_CHANGE_LINES) :
    (updateLevel s).level = 1 + s.lines_cleared / LEVEL_CHANGE_LINES := by
  simp only [updateLevel, adjustGameSpeed]
  by_cases h' : s.level < 1 + s.lines_cleared / LEVEL_CHANGE_LINES
  · rw [if_pos h']
  · rw [if_neg h']
    exact le_antisymm h (not_lt.mp h')

theorem updateLevel_level_ge (s : GameState) (h : 1 ≤ s.level) :
    1 ≤ (updateLevel s).level := by
  simp only [updateLevel, adjustGameSpeed]
  by_cases h' : s.level < 1 + s.lines_cleared / LEVEL_CHANGE_LINES
  · rw [if_pos h']; exact Nat.le_add_right 1 _
  · rw [if_neg h']; exact h

theorem updateLevel_speed (s : GameState) (h : (100 : Int) ≤ s.drop_speed) :
    (updateLevel s).drop_speed ≤ s.drop_speed ∧
    (100 : Int) ≤ (updateLevel s).drop_speed := by
  simp only [updateLevel, adjustGameSpeed]
  by_cases h' : s.level < 1 + s.lines_cleared / LEVEL_CHANGE_LINES
  · rw [if_pos h']
    have hd : (0 : Int) ≤ LEVEL_SPEED_INCREMENT *
        (((1 + s.lines_cleared / LEVEL_CHANGE_LINES : Nat) : Int) - 1) := by
      have h1 : (1 : Int) ≤ ((1 + s.lines_cleared / LEVEL_CHANGE_LINES : Nat) : Int) := by
        push_cast; omega
      unfold LEVEL_SPEED_INCREMENT
      nlinarith
    exact ⟨max_le h (by omega), le_max_left _ _⟩
  · rw [if_neg h']; exact ⟨le_refl _, h⟩

theorem newTetrimino_some_fields (sh : Shape) (s s' : GameState)
    (h : newTetrimino sh s = some s') :
    s'.piece_rotations = TETRIMINOS sh ∧ s'.piece_rotation = 0 ∧
    s'.piece_row = 0 ∧ s'.piece_col = 4 ∧ s'.grid = s.grid ∧
    s'.level = s.level ∧ s'.lines_cleared = s.lines_cleared ∧
    s'.drop_speed = s.drop_speed ∧ s'.score = s.score := by
  unfold newTetrimino at h
  cases hc : canFit s.grid (TETRIMINOS sh) 0 4 0 with
  | none => simp only [hc] at h; exact Option.noConfusion h
  | some fits =>
    simp only [hc, Option.some.injEq] at h
    subst h
    exact ⟨rfl, rfl, rfl, rfl, rfl, rfl, rfl, rfl, rfl⟩

theorem placeTetrimino_some_fields (s s' : GameState)
    (h : placeTetrimino s = some s') :
    s'.score = s.score ∧ s'.lines_cleared = s.lines_cleared ∧ s'.level = s.level ∧
    s'.drop_speed = s.drop_speed ∧ s'.piece_rotations = s.piece_rotations ∧
    s'.piece_rotation = s.piece_rotation ∧ s'.piece_row = s.piece_row ∧
    s'.piece_col = s.piece_col ∧ s'.game_over = s.game_over := by
  unfold placeTetrimino at h
  cases hg : getShape s.piece_rotations s.piece_rotation with
  | none => simp only [hg] at h; exact Option.noConfusion h
  | some shape =>
    simp only [hg] at h
    cases hp : placeShape s.grid s.piece_row s.piece_col 0 shape with
    | none => simp only [hp] at h; exact Option.noConfusion h
    | some g2 =>
      simp only [hp, Option.some.injEq] at h
      subst h
      exact ⟨rfl, rfl, rfl, rfl, rfl, rfl, rfl, rfl, rfl⟩

/-- Case analysis of `drop_tetrimino`: either the piece cannot move and
nothing happens, or it moves down one row and still fits further, or it
moves down one row and is locked (place, clear, level update, respawn,
game-over re-check) within the same call. -/
theorem dropTetrimino_cases (nxt : Shape) (s s' : GameState) (b : Bool)
    (h : dropTetrimino nxt s = some (s', b)) :
    (canFitS s (s.piece_row + 1) s.piece_col = some false ∧
       b = false ∧ s' = s) ∨
    (canFitS s (s.piece_row + 1) s.piece_col = some true ∧
       canFitS { s with piece_row := s.piece_row + 1 }
         (s.piece_row + 1 + 1) s.piece_col = some true ∧
       b = true ∧ s' = { s with piece_row := s.piece_row + 1 }) ∨
    (canFitS s (s.piece_row + 1) s.piece_col = some true ∧
       canFitS { s with piece_row := s.piece_row + 1 }
         (s.piece_row + 1 + 1) s.piece_col = some false ∧
       b = true ∧ ∃ s2 s5 fits,
         placeTetrimino { s with piece_row := s.piece_row + 1 } = some s2 ∧
         newTetrimino nxt (updateLevel (clearLines s2)) = some s5 ∧
         canFit s5.grid s5.piece_rotations 0 4 0 = some fits ∧
         s' = (if fits then s5 else { s5 with game_over := true })) := by
  unfold dropTetrimino at h
  cases hc1 : canFitS s (s.piece_row + 1) s.piece_col with
  | none => simp only [hc1] at h; exact Option.noConfusion h
  | some b1 =>
    cases b1 with
    | false =>
      simp only [hc1, Option.some.injEq, Prod.mk.injEq] at h
      exact Or.inl ⟨rfl, h.2.symm, h.1.symm⟩
    | true =>
      simp only [hc1] at h
      cases hc2 : canFitS { s with piece_row := s.piece_row + 1 }
          (s.piece_row + 1 + 1) s.piece_col with
      | none => simp only [hc2] at h; exact Option.noConfusion h
      | some b2 =>
        cases b2 with
        | true =>
          simp only [hc2, Option.some.injEq, Prod.mk.injEq] at h
          exact Or.inr (Or.inl ⟨rfl, rfl, h.2.symm, h.1.symm⟩)
        | false =>
          simp only [hc2] at h
          cases hp : placeTetrimino { s with piece_row := s.piece_row + 1 } with
          | none => simp only [hp] at h; exact Option.noConfusion h
          | some s2 =>
            simp only [hp] at h
            cases hn : newTetrimino nxt (updateLevel (clearLines s2)) with
            | none => simp only [hn] at h; exact Option.noConfusion h
            | some s5 =>
              simp only [hn] at h
              cases hcf : canFit s5.grid s5.piece_rotations 0 4 0 with
              | none => simp only [hcf] at h; exact Option.noConfusion h
              | some fits =>
                cases fits with
                | true =>
                  simp only [hcf, Option.some.injEq, Prod.mk.injEq] at h
                  exact Or.inr (Or.inr ⟨rfl, rfl, h.2.symm,
                    s2, s5, true, rfl, hn, hcf, by rw [if_pos rfl, ← h.1]⟩)
                | false =>
                  simp only [hcf, Option.some.injEq, Prod.mk.injEq] at h
                  refine Or.inr (Or.inr ⟨rfl, rfl, h.2.symm,
                    s2, s5, false, rfl, hn, hcf, ?_⟩)
                  rw [if_neg (by simp), ← h.1]

/-! ## C3 (amended): the lock happens within the drop step -/

/-- C3 (amended): in the per-frame drop step, when the piece fits one
row down it moves down one row, and if it then cannot fit one further
row down it is locked **in that same step**: the piece is written into
the grid, lines are cleared, the level is updated and a new piece is
spawned at `(0, 4)` — there is no deferral of the lock to the next drop
attempt. -/
theorem dropTetrimino_locks_in_same_step (nxt : Shape) (s s' : GameState) (b : Bool)
    (h1 : canFitS s (s.piece_row + 1) s.piece_col = some true)
    (h2 : canFitS { s with piece_row := s.piece_row + 1 }
            (s.piece_row + 1 + 1) s.piece_col = some false)
    (h3 : dropTetrimino nxt s = some (s', b)) :
    b = true ∧ s'.piece_rotations = TETRIMINOS nxt ∧
      s'.piece_row = 0 ∧ s'.piece_col = 4 ∧
      ∃ s2, placeTetrimino { s with piece_row := s.piece_row + 1 } = some s2 ∧
        s'.grid = (clearLines s2).grid := by
  rcases dropTetrimino_cases nxt s s' b h3 with
    ⟨hf, _, _⟩ | ⟨_, ht, _, _⟩ | ⟨_, _, hb, s2, s5, fits, hp, hn, hcf, hs'⟩
  · rw [h1] at hf; exact absurd hf (by simp)
  · rw [h2] at ht; exact absurd ht (by simp)
  · obtain ⟨hrots, _, hrow0, hcol4, hgrid5, _, _, _, _⟩ :=
      newTetrimino_some_fields nxt (updateLevel (clearLines s2)) s5 hn
    have hgrid : s5.grid = (clearLines s2).grid :=
      hgrid5.trans (updateLevel_fields (clearLines s2)).1
    cases fits with
    | true =>
      rw [if_pos rfl] at hs'
      subst hs'
      exact ⟨hb, hrots, hrow0, hcol4, s2, hp, hgrid⟩
    | false =>
      rw [if_neg (by simp)] at hs'
      subst hs'
      exact ⟨hb, hrots, hrow0, hcol4, s2, hp, hgrid⟩

/-- The state produced by the drop step at `C3state`. -/
def C3result : GameState :=
  ((dropTetrimino Shape.I C3state).map Prod.fst).getD C3state

/-- Witness for `dropTetrimino_locks_in_same_step` at `C3state`. -/
theorem dropTetrimino_locks_in_same_step_witness :
    true = true ∧ C3result.piece_rotations = TETRIMINOS Shape.I ∧
      C3result.piece_row = 0 ∧ C3result.piece_col = 4 ∧
      ∃ s2, placeTetrimino { C3state with piece_row := C3state.piece_row + 1 } = some s2 ∧
        C3result.grid = (clearLines s2).grid :=
  dropTetrimino_locks_in_same_step Shape.I C3state C3result true
    (by decide) (by decide) (by decide)

/-! ## Level and speed lemmas for the drop step -/

/-- `drop_tetrimino` preserves the levelling equation
`level = 1 + lines_cleared / LEVEL_CHANGE_LINES` (its lock branch calls
`update_level` after clearing). -/
theorem dropTetrimino_levelInv (nxt : Shape) (s s' : GameState) (b : Bool)
    (hinv : s.level = 1 + s.lines_cleared / LEVEL_CHANGE_LINES)
    (h : dropTetrimino nxt s = some (s', b)) :
    s'.level = 1 + s'.lines_cleared / LEVEL_CHANGE_LINES := by
  rcases dropTetrimino_cases nxt s s' b h with
    ⟨_, _, rfl⟩ | ⟨_, _, _, rfl⟩ | ⟨_, _, _, s2, s5, fits, hp, hn, hcf, hs'⟩
  · exact hinv
  · exact hinv
  · obtain ⟨_, _, _, _, _, hlv5, hlc5, _, _⟩ :=
      newTetrimino_some_fields nxt (updateLevel (clearLines s2)) s5 hn
    obtain ⟨_, hlc2, hlv2, _, _, _, _, _, _⟩ :=
      placeTetrimino_some_fields { s with piece_row := s.piece_row + 1 } s2 hp
    have hle : (clearLines s2).level ≤
        1 + (clearLines s2).lines_cleared / LEVEL_CHANGE_LINES := by
      have h1 : (clearLines s2).level = s.level := by
        rw [(clearLines_fields s2).1, hlv2]
      have h2 : s2.lines_cleared ≤ (clearLines s2).lines_cleared :=
        Nat.le_add_right _ _
      rw [h1, hinv, ← hlc2]
      exact Nat.add_le_add_left (Nat.div_le_div_right h2) 1
    have hl4 := updateLevel_inv (clearLines s2) hle
    have hl4l := (updateLevel_fields (clearLines s2)).2.1
    cases fits with
    | true =>
      rw [if_pos rfl] at hs'
      subst hs'
      rw [hlv5, hlc5, hl4, hl4l]
    | false =>
      rw [if_neg (by simp)] at hs'
      subst hs'
      show s5.level = 1 + s5.lines_cleared / LEVEL_CHANGE_LINES
      rw [hlv5, hlc5, hl4, hl4l]

/-- `drop_tetrimino` never increases the drop interval, keeps it at or
above the 100 ms floor, and keeps the level at least 1. -/
theorem dropTetrimino_speed (nxt : Shape) (s s' : GameState) (b : Bool)
    (h : dropTetrimino nxt s = some (s', b))
    (hsp : (100 : Int) ≤ s.drop_speed) (hlv : 1 ≤ s.level) :
    s'.drop_speed ≤ s.drop_speed ∧ (100 : Int) ≤ s'.drop_speed ∧ 1 ≤ s'.level := by
  rcases dropTetrimino_cases nxt s s' b h with
    ⟨_, _, rfl⟩ | ⟨_, _, _, rfl⟩ | ⟨_, _, _, s2, s5, fits, hp, hn, hcf, hs'⟩
  · exact ⟨le_refl _, hsp, hlv⟩
  · exact ⟨le_refl _, hsp, hlv⟩
  · obtain ⟨_, _, _, _, _, hlv5, _, hsp5, _⟩ :=
      newTetrimino_some_fields nxt (updateLevel (clearLines s2)) s5 hn
    obtain ⟨_, _, hlv2, hsp2, _, _, _, _, _⟩ :=
      placeTetrimino_some_fields { s with piece_row := s.piece_row + 1 } s2 hp
    have hsp3 : (clearLines s2).drop_speed = s.drop_speed := by
      rw [(clearLines_fields s2).2.1, hsp2]
    have hlv3 : (clearLines s2).level = s.level := by
      rw [(clearLines_fields s2).1, hlv2]
    have hspeed := updateLevel_speed (clearLines s2) (by rw [hsp3]; exact hsp)
    have hlev := updateLevel_level_ge (clearLines s2) (by rw [hlv3]; exact hlv)
    have hall : s5.drop_speed ≤ s.drop_speed ∧ (100 : Int) ≤ s5.drop_speed ∧
        1 ≤ s5.level := by
      refine ⟨?_, ?_, ?_⟩
      · rw [hsp5]; exact le_trans hspeed.1 (le_of_eq hsp3)
      · rw [hsp5]; exact hspeed.2
      · rw [hlv5]; exact hlev
    cases fits with
    | true => rw [if_pos rfl] at hs'; subst hs'; exact hall
    | false =>
      rw [if_neg (by simp)] at hs'
      subst hs'
      exact hall

/-- Case analysis of `attempt_to_drop`: either the piece moved (possibly
locking inside `drop_tetrimino`), or the piece could not move at all and
is locked through the fallback path — place, clear lines (without a
level update) and respawn.  Both paths stamp `last_drop_time`. -/
theorem attemptToDrop_cases (nxt : Shape) (ct : Int) (s s' : GameState)
    (h : attemptToDrop nxt ct s = some s') :
    (∃ s1, dropTetrimino nxt s = some (s1, true) ∧
        s' = { s1 with last_drop_time := ct }) ∨
    (∃ s2 s4, dropTetrimino nxt s = some (s, false) ∧
        placeTetrimino s = some s2 ∧
        newTetrimino nxt (clearLines s2) = some s4 ∧
        s' = { s4 with last_drop_time := ct }) := by
  unfold attemptToDrop at h
  cases hd : dropTetrimino nxt s with
  | none => simp only [hd] at h; exact Option.noConfusion h
  | some p =>
    obtain ⟨s1, dropped⟩ := p
    cases dropped with
    | true =>
      simp only [hd, if_true] at h
      rw [Option.some.injEq] at h
      exact Or.inl ⟨s1, rfl, h.symm⟩
    | false =>
      have hEq : s1 = s := by
        rcases dropTetrimino_cases nxt s s1 false hd with
          ⟨_, _, h'⟩ | ⟨_, _, hb, _⟩ | ⟨_, _, hb, _⟩
        · exact h'
        · exact Bool.noConfusion hb
        · exact Bool.noConfusion hb
      subst hEq
      simp only [hd] at h
      rw [if_neg (by simp)] at h
      cases hp : placeTetrimino s1 with
      | none => simp only [hp] at h; exact Option.noConfusion h
      | some s2 =>
        simp only [hp] at h
        cases hn : newTetrimino nxt (clearLines s2) with
        | none => simp only [hn] at h; exact Option.noConfusion h
        | some s4 =>
          simp only [hn, Option.some.injEq] at h
          exact Or.inr ⟨s2, s4, rfl, rfl, hn, h.symm⟩


/-! ## Field lemmas for the input handlers -/

theorem moveLeftStep_fields (cmds : Commands) (s s' : GameState)
    (h : moveLeftStep cmds s = some s') :
    s'.grid = s.grid ∧ s'.piece_rotations = s.piece_rotations ∧
    s'.piece_rotation = s.piece_rotation ∧ s'.level = s.level ∧
    s'.drop_speed = s.drop_speed ∧ s'.lines_cleared = s.lines_cleared ∧
    s'.score = s.score := by
  unfold moveLeftStep at h
  by_cases hl : cmds.move_left = true
  · rw [if_pos hl] at h
    cases hc : canFitS s s.piece_row (s.piece_col - 1) with
    | none => simp only [hc] at h; exact Option.noConfusion h
    | some b =>
      cases b with
      | true =>
        simp only [hc, Option.some.injEq] at h
        subst h; exact ⟨rfl, rfl, rfl, rfl, rfl, rfl, rfl⟩
      | false =>
        simp only [hc, Option.some.injEq] at h
        subst h; exact ⟨rfl, rfl, rfl, rfl, rfl, rfl, rfl⟩
  · rw [if_neg hl, Option.some.injEq] at h
    subst h; exact ⟨rfl, rfl, rfl, rfl, rfl, rfl, rfl⟩

theorem moveRightStep_fields (cmds : Commands) (s s' : GameState)
    (h : moveRightStep cmds s = some s') :
    s'.grid = s.grid ∧ s'.piece_rotations = s.piece_rotations ∧
    s'.piece_rotation = s.piece_rotation ∧ s'.level = s.level ∧
    s'.drop_speed = s.drop_speed ∧ s'.lines_cleared = s.lines_cleared ∧
    s'.score = s.score := by
  unfold moveRightStep at h
  by_cases hl : cmds.move_right = true
  · rw [if_pos hl] at h
    cases hc : canFitS s s.piece_row (s.piece_col + 1) with
    | none => simp only [hc] at h; exact Option.noConfusion h
    | some b =>
      cases b with
      | true =>
        simp only [hc, Option.some.injEq] at h
        subst h; exact ⟨rfl, rfl, rfl, rfl, rfl, rfl, rfl⟩
      | false =>
        simp only [hc, Option.some.injEq] at h
        subst h; exact ⟨rfl, rfl, rfl, rfl, rfl, rfl, rfl⟩
  · rw [if_neg hl, Option.some.injEq] at h
    subst h; exact ⟨rfl, rfl, rfl, rfl, rfl, rfl, rfl⟩

theorem handleMoves_fields (ct : Int) (cmds : Commands) (s s' : GameState)
    (h : handleMoves ct cmds s = some s') :
    s'.grid = s.grid ∧ s'.piece_rotations = s.piece_rotations ∧
    s'.piece_rotation = s.piece_rotation ∧ s'.level = s.level ∧
    s'.drop_speed = s.drop_speed ∧ s'.lines_cleared = s.lines_cleared ∧
    s'.score = s.score := by
  unfold handleMoves at h
  by_cases ht : s.move_speed < ct - s.last_move_time
  · rw [if_pos ht] at h
    cases h1 : moveLeftStep cmds s with
    | none => simp only [h1] at h; exact Option.noConfusion h
    | some s1 =>
      simp only [h1] at h
      cases h2 : moveRightStep cmds s1 with
      | none => simp only [h2] at h; exact Option.noConfusion h
      | some s2 =>
        simp only [h2, Option.some.injEq] at h
        subst h
        obtain ⟨a1, a2, a3, a4, a5, a6, a7⟩ := moveLeftStep_fields cmds s s1 h1
        obtain ⟨b1, b2, b3, b4, b5, b6, b7⟩ := moveRightStep_fields cmds s1 s2 h2
        exact ⟨b1.trans a1, b2.trans a2, b3.trans a3, b4.trans a4,
          b5.trans a5, b6.trans a6, b7.trans a7⟩
  · rw [if_neg ht, Option.some.injEq] at h
    subst h; exact ⟨rfl, rfl, rfl, rfl, rfl, rfl, rfl⟩

theorem handleRotation_fields (ct : Int) (cmds : Commands) (s s' : GameState)
    (h : handleRotation ct cmds s = some s') :
    s'.grid = s.grid ∧ s'.piece_rotations = s.piece_rotations ∧
    s'.level = s.level ∧ s'.drop_speed = s.drop_speed ∧
    s'.lines_cleared = s.lines_cleared ∧ s'.score = s.score ∧
    s'.piece_row = s.piece_row ∧ s'.piece_col = s.piece_col := by
  unfold handleRotation at h
  by_cases hr : cmds.rotate = true
  · rw [if_pos hr] at h
    cases ht : Tetrimino.rotate
        ⟨s.piece_rotations, s.piece_rotation, s.grid, s.piece_row, s.piece_col⟩
        ct s.last_rotation_time s.rotation_delay s.rotate_sound_present with
    | none => simp only [ht] at h; exact Option.noConfusion h
    | some trip =>
      obtain ⟨tet, played, newLast⟩ := trip
      simp only [ht, Option.some.injEq] at h
      subst h
      exact ⟨rfl, rfl, rfl, rfl, rfl, rfl, rfl, rfl⟩
  · rw [if_neg hr, Option.some.injEq] at h
    subst h; exact ⟨rfl, rfl, rfl, rfl, rfl, rfl, rfl, rfl⟩

/-! ## Speed and level bounds through the per-frame update -/

theorem attemptToDrop_speed (nxt : Shape) (ct : Int) (s s' : GameState)
    (h : attemptToDrop nxt ct s = some s')
    (hsp : (100 : Int) ≤ s.drop_speed) (hlv : 1 ≤ s.level) :
    s'.drop_speed ≤ s.drop_speed ∧ (100 : Int) ≤ s'.drop_speed ∧ 1 ≤ s'.level := by
  rcases attemptToDrop_cases nxt ct s s' h with
    ⟨s1, hd, rfl⟩ | ⟨s2, s4, hd, hp, hn, rfl⟩
  · exact dropTetrimino_speed nxt s s1 true hd hsp hlv
  · obtain ⟨_, _, hlv2, hsp2, _, _, _, _, _⟩ := placeTetrimino_some_fields s s2 hp
    obtain ⟨_, _, _, _, _, hlv4, _, hsp4, _⟩ :=
      newTetrimino_some_fields nxt (clearLines s2) s4 hn
    have e1 : s4.drop_speed = s.drop_speed := by
      rw [hsp4, (clearLines_fields s2).2.1, hsp2]
    have e2 : s4.level = s.level := by
      rw [hlv4, (clearLines_fields s2).1, hlv2]
    refine ⟨?_, ?_, ?_⟩
    · show s4.drop_speed ≤ s.drop_speed
      exact le_of_eq e1
    · show (100 : Int) ≤ s4.drop_speed
      rw [e1]; exact hsp
    · show 1 ≤ s4.level
      rw [e2]; exact hlv

theorem handleAutomaticDrop_speed (nxt : Shape) (ct : Int) (cmds : Commands)
    (s s' : GameState) (h : handleAutomaticDrop nxt ct cmds s = some s')
    (hsp : (100 : Int) ≤ s.drop_speed) (hlv : 1 ≤ s.level) :
    s'.drop_speed ≤ s.drop_speed ∧ (100 : Int) ≤ s'.drop_speed ∧ 1 ≤ s'.level := by
  unfold handleAutomaticDrop at h
  by_cases hm : cmds.move_down = true
  · rw [if_pos hm] at h
    by_cases hts : s.soft_drop_speed < ct - s.last_drop_time
    · rw [if_pos hts] at h
      exact attemptToDrop_speed nxt ct s s' h hsp hlv
    · rw [if_neg hts, Option.some.injEq] at h
      subst h; exact ⟨le_refl _, hsp, hlv⟩
  · rw [if_neg hm] at h
    by_cases htd : s.drop_speed < ct - s.last_drop_time
    · rw [if_pos htd] at h
      exact attemptToDrop_speed nxt ct s s' h hsp hlv
    · rw [if_neg htd, Option.some.injEq] at h
      subst h; exact ⟨le_refl _, hsp, hlv⟩

theorem update_speed (cmds : Commands) (ct : Int) (nxt : Shape) (s s' : GameState)
    (h : update cmds ct nxt s = some s')
    (hsp : (100 : Int) ≤ s.drop_speed) (hlv : 1 ≤ s.level) :
    s'.drop_speed ≤ s.drop_speed ∧ (100 : Int) ≤ s'.drop_speed ∧ 1 ≤ s'.level := by
  unfold update at h
  by_cases hgo : (s.game_over || s.is_paused) = true
  · rw [if_pos hgo, Option.some.injEq] at h
    subst h; exact ⟨le_refl _, hsp, hlv⟩
  · rw [if_neg hgo] at h
    cases h1 : handleMoves ct cmds s with
    | none => simp only [h1] at h; exact Option.noConfusion h
    | some s1 =>
      simp only [h1] at h
      cases h2 : handleRotation ct cmds s1 with
      | none => simp only [h2] at h; exact Option.noConfusion h
      | some s2 =>
        simp only [h2] at h
        have hmf := handleMoves_fields ct cmds s s1 h1
        have hrf := handleRotation_fields ct cmds s1 s2 h2
        have hs1sp : s1.drop_speed = s.drop_speed := hmf.2.2.2.2.1
        have hs1lv : s1.level = s.level := hmf.2.2.2.1
        have hs2sp : s2.drop_speed = s1.drop_speed := hrf.2.2.2.1
        have hs2lv : s2.level = s1.level := hrf.2.2.1
        have had := handleAutomaticDrop_speed nxt ct cmds s2 s' h
          (by rw [hs2sp, hs1sp]; exact hsp) (by rw [hs2lv, hs1lv]; exact hlv)
        refine ⟨?_, had.2.1, had.2.2⟩
        calc s'.drop_speed ≤ s2.drop_speed := had.1
          _ = s.drop_speed := by rw [hs2sp, hs1sp]

/-! ## C7 (amended): levelling and drop-interval progression -/

/-- C7 (amended): the levelling equation
`level = 1 + floor(lines_cleared / LEVEL_CHANGE_LINES)` is preserved by
the gravity step `drop_tetrimino` (whose lock branch recomputes the
level), but **not** by a lock through `attempt_to_drop`'s fallback path,
which adds to `lines_cleared` without calling `update_level`
(see `level_invariant_cex`); the drop-interval half of the claim holds
as stated: across every per-frame update the drop interval is
monotonically non-increasing, never drops below the 100 ms floor, and
the level never falls below 1. -/
theorem level_and_speed_amended :
    (∀ (nxt : Shape) (s s' : GameState) (b : Bool),
        s.level = 1 + s.lines_cleared / LEVEL_CHANGE_LINES →
        dropTetrimino nxt s = some (s', b) →
        s'.level = 1 + s'.lines_cleared / LEVEL_CHANGE_LINES) ∧
    (∀ (cmds : Commands) (ct : Int) (nxt : Shape) (s s' : GameState),
        (100 : Int) ≤ s.drop_speed → 1 ≤ s.level →
        update cmds ct nxt s = some s' →
        s'.drop_speed ≤ s.drop_speed ∧ (100 : Int) ≤ s'.drop_speed ∧
          1 ≤ s'.level) :=
  ⟨fun nxt s s' b hinv h => dropTetrimino_levelInv nxt s s' b hinv h,
   fun cmds ct nxt s s' hsp hlv h => update_speed cmds ct nxt s s' h hsp hlv⟩

/-- An O-piece two rows above its resting place on an empty grid. -/
def C7wState : GameState := { initState Shape.O 0 true with piece_row := 17 }

/-- The state after the gravity step at `C7wState`. -/
def C7wDrop : GameState :=
  ((dropTetrimino Shape.O C7wState).map Prod.fst).getD C7wState

/-- The state after a full update frame at `C7wState`. -/
def C7wUpd : GameState :=
  (update noCommands 2000 Shape.O C7wState).getD C7wState

/-- Witness for `level_and_speed_amended` at concrete states: a locking
gravity step preserving the level equation, and a full frame respecting
the drop-interval bounds. -/
theorem level_and_speed_amended_witness :
    C7wDrop.level = 1 + C7wDrop.lines_cleared / LEVEL_CHANGE_LINES ∧
    (C7wUpd.drop_speed ≤ C7wState.drop_speed ∧
      (100 : Int) ≤ C7wUpd.drop_speed ∧ 1 ≤ C7wUpd.level) :=
  ⟨level_and_speed_amended.1 Shape.O C7wState C7wDrop true (by decide) (by decide),
   level_and_speed_amended.2 noCommands 2000 Shape.O C7wState C7wUpd
     (by decide) (by decide) (by decide)⟩


/-! ## Grid well-formedness (C10) -/

/-- The data model's grid invariant: fixed `GRID_HEIGHT x GRID_WIDTH`
dimensions and every cell value in `{0..7}`. -/
def WFGrid (g : List (List Nat)) : Prop :=
  g.length = GRID_HEIGHT ∧ ∀ row ∈ g, row.length = GRID_WIDTH ∧ ∀ v ∈ row, v ≤ 7

instance (g : List (List Nat)) : Decidable (WFGrid g) := by
  unfold WFGrid; infer_instance

/-- The active piece's rotation matrices carry only fill ids `≤ 7`. -/
def WFPiece (s : GameState) : Prop :=
  ∀ m ∈ s.piece_rotations, ∀ row ∈ m, ∀ v ∈ row, v ≤ 7

instance (s : GameState) : Decidable (WFPiece s) := by
  unfold WFPiece; infer_instance

theorem TETRIMINOS_wf (sh : Shape) :
    ∀ m ∈ TETRIMINOS sh, ∀ row ∈ m, ∀ v ∈ row, v ≤ 7 := by
  cases sh <;> decide

theorem pyGet_some_mem {α : Type} {l : List α} {i : Int} {a : α}
    (h : pyGet l i = some a) : a ∈ l := by
  unfold pyGet at h
  split at h
  · exact List.get?_mem h
  · split at h
    · exact List.get?_mem h
    · exact Option.noConfusion h

theorem pySet_some_length {α : Type} {l l' : List α} {i : Int} {a : α}
    (h : pySet l i a = some l') : l'.length = l.length := by
  unfold pySet at h
  split at h
  · split at h
    · rw [Option.some.injEq] at h; subst h; exact List.length_set l _ _
    · exact Option.noConfusion h
  · split at h
    · rw [Option.some.injEq] at h; subst h; exact List.length_set l _ _
    · exact Option.noConfusion h

theorem pySet_some_mem {α : Type} {l l' : List α} {i : Int} {a : α}
    (h : pySet l i a = some l') : ∀ x ∈ l', x ∈ l ∨ x = a := by
  unfold pySet at h
  split at h
  · split at h
    · rw [Option.some.injEq] at h; subst h
      exact fun x hx => List.mem_or_eq_of_mem_set hx
    · exact Option.noConfusion h
  · split at h
    · rw [Option.some.injEq] at h; subst h
      exact fun x hx => List.mem_or_eq_of_mem_set hx
    · exact Option.noConfusion h

theorem placeRow_wf (r col : Int) :
    ∀ (j : Nat) (cells : List Nat) (g g' : List (List Nat)),
      placeRow g r col j cells = some g' →
      WFGrid g → (∀ v ∈ cells, v ≤ 7) → WFGrid g' := by
  intro j cells
  induction cells generalizing j with
  | nil =>
    intro g g' h hw _
    simp only [placeRow, Option.some.injEq] at h
    subst h; exact hw
  | cons cell rest ih =>
    intro g g' h hw hc
    by_cases hcell : 0 < cell
    · simp only [placeRow, if_pos hcell] at h
      cases hg : pyGet g r with
      | none => simp only [hg] at h; exact Option.noConfusion h
      | some rowr =>
        simp only [hg] at h
        cases hs1 : pySet rowr (col + (j : Int)) cell with
        | none => simp only [hs1] at h; exact Option.noConfusion h
        | some rowr2 =>
          simp only [hs1] at h
          cases hs2 : pySet g r rowr2 with
          | none => simp only [hs2] at h; exact Option.noConfusion h
          | some g2 =>
            simp only [hs2] at h
            have hrowr := hw.2 rowr (pyGet_some_mem hg)
            have hrowr2len : rowr2.length = GRID_WIDTH := by
              rw [pySet_some_length hs1, hrowr.1]
            have hrowr2vals : ∀ v ∈ rowr2, v ≤ 7 := by
              intro v hv
              rcases pySet_some_mem hs1 v hv with hin | rfl
              · exact hrowr.2 v hin
              · exact hc v (List.mem_cons_self _ _)
            have hg2 : WFGrid g2 := by
              constructor
              · rw [pySet_some_length hs2, hw.1]
              · intro row hrow
                rcases pySet_some_mem hs2 row hrow with hin | rfl
                · exact hw.2 row hin
                · exact ⟨hrowr2len, hrowr2vals⟩
            exact ih (j + 1) g2 g' h hg2 (fun v hv => hc v (List.mem_cons_of_mem _ hv))
    · simp only [placeRow, if_neg hcell] at h
      exact ih (j + 1) g g' h hw (fun v hv => hc v (List.mem_cons_of_mem _ hv))

theorem placeShape_wf (row col : Int) :
    ∀ (i : Nat) (lines : List (List Nat)) (g g' : List (List Nat)),
      placeShape g row col i lines = some g' →
      WFGrid g → (∀ line ∈ lines, ∀ v ∈ line, v ≤ 7) → WFGrid g' := by
  intro i lines
  induction lines generalizing i with
  | nil =>
    intro g g' h hw _
    simp only [placeShape, Option.some.injEq] at h
    subst h; exact hw
  | cons line rest ih =>
    intro g g' h hw hl
    simp only [placeShape] at h
    cases hpr : placeRow g (row + (i : Int)) col 0 line with
    | none => simp only [hpr] at h; exact Option.noConfusion h
    | some g2 =>
      simp only [hpr] at h
      have hg2 := placeRow_wf (row + (i : Int)) col 0 line g g2 hpr hw
        (hl line (List.mem_cons_self _ _))
      exact ih (i + 1) g2 g' h hg2
        (fun l hm v hv => hl l (List.mem_cons_of_mem _ hm) v hv)

theorem placeTetrimino_wf (s s' : GameState) (h : placeTetrimino s = some s')
    (hw : WFGrid s.grid) (hp : WFPiece s) : WFGrid s'.grid := by
  unfold placeTetrimino at h
  cases hg : getShape s.piece_rotations s.piece_rotation with
  | none => simp only [hg] at h; exact Option.noConfusion h
  | some shape =>
    simp only [hg] at h
    cases hps : placeShape s.grid s.piece_row s.piece_col 0 shape with
    | none => simp only [hps] at h; exact Option.noConfusion h
    | some g2 =>
      simp only [hps, Option.some.injEq] at h
      subst h
      have hg' : s.piece_rotations.get? s.piece_rotation = some shape := hg
      exact placeShape_wf s.piece_row s.piece_col 0 shape s.grid g2 hps hw
        (fun line hm v hv => hp shape (List.get?_mem hg') line hm v hv)

theorem countP_not_add_filter_length (g : List (List Nat)) :
    g.countP (fun row => !(row.contains 0)) +
      (g.filter (fun row => row.contains 0)).length = g.length := by
  induction g with
  | nil => rfl
  | cons r t ih =>
    simp only [List.countP_cons, List.filter_cons, List.length_cons]
    by_cases h : r.contains 0 = true
    · have h1 : ¬((!(r.contains 0)) = true) := by rw [h]; simp
      rw [if_pos h, if_neg h1, List.length_cons]
      omega
    · have h0 : r.contains 0 = false := by
        cases hc : r.contains 0
        · rfl
        · exact absurd hc h
      have h1 : (!(r.contains 0)) = true := by rw [h0]; rfl
      rw [if_neg h, if_pos h1]
      omega

theorem clearLines_wf (s : GameState) (hw : WFGrid s.grid) :
    WFGrid (clearLines s).grid := by
  obtain ⟨hlen, hrows⟩ := hw
  constructor
  · show (List.replicate _ _ ++ _).length = GRID_HEIGHT
    rw [List.length_append, List.length_replicate, ← hlen]
    exact countP_not_add_filter_length s.grid
  · intro row hrow
    rcases List.mem_append.mp hrow with hmem | hmem
    · rw [List.eq_of_mem_replicate hmem]
      refine ⟨List.length_replicate _ _, ?_⟩
      intro v hv
      rw [List.eq_of_mem_replicate hv]
      exact Nat.zero_le 7
    · exact hrows row (List.mem_filter.mp hmem).1

theorem dropTetrimino_wf (nxt : Shape) (s s' : GameState) (b : Bool)
    (h : dropTetrimino nxt s = some (s', b))
    (hw : WFGrid s.grid) (hp : WFPiece s) : WFGrid s'.grid := by
  rcases dropTetrimino_cases nxt s s' b h with
    ⟨_, _, rfl⟩ | ⟨_, _, _, rfl⟩ | ⟨_, _, _, s2, s5, fits, hpl, hn, hcf, hs'⟩
  · exact hw
  · exact hw
  · have h2 : WFGrid s2.grid :=
      placeTetrimino_wf { s with piece_row := s.piece_row + 1 } s2 hpl hw hp
    have h3 : WFGrid (clearLines s2).grid := clearLines_wf s2 h2
    obtain ⟨_, _, _, _, hg5, _, _, _, _⟩ :=
      newTetrimino_some_fields nxt (updateLevel (clearLines s2)) s5 hn
    have h5 : WFGrid s5.grid := by
      rw [hg5, (updateLevel_fields (clearLines s2)).1]; exact h3
    cases fits with
    | true => rw [if_pos rfl] at hs'; subst hs'; exact h5
    | false => rw [if_neg (by simp)] at hs'; subst hs'; exact h5

theorem attemptToDrop_wf (nxt : Shape) (ct : Int) (s s' : GameState)
    (h : attemptToDrop nxt ct s = some s')
    (hw : WFGrid s.grid) (hp : WFPiece s) : WFGrid s'.grid := by
  rcases attemptToDrop_cases nxt ct s s' h with
    ⟨s1, hd, rfl⟩ | ⟨s2, s4, hd, hpl, hn, rfl⟩
  · exact dropTetrimino_wf nxt s s1 true hd hw hp
  · have h2 := placeTetrimino_wf s s2 hpl hw hp
    have h3 := clearLines_wf s2 h2
    obtain ⟨_, _, _, _, hg4, _, _, _, _⟩ :=
      newTetrimino_some_fields nxt (clearLines s2) s4 hn
    show WFGrid s4.grid
    rw [hg4]; exact h3

theorem handleAutomaticDrop_wf (nxt : Shape) (ct : Int) (cmds : Commands)
    (s s' : GameState) (h : handleAutomaticDrop nxt ct cmds s = some s')
    (hw : WFGrid s.grid) (hp : WFPiece s) : WFGrid s'.grid := by
  unfold handleAutomaticDrop at h
  by_cases hm : cmds.move_down = true
  · rw [if_pos hm] at h
    by_cases hts : s.soft_drop_speed < ct - s.last_drop_time
    · rw [if_pos hts] at h
      exact attemptToDrop_wf nxt ct s s' h hw hp
    · rw [if_neg hts, Option.some.injEq] at h; subst h; exact hw
  · rw [if_neg hm] at h
    by_cases htd : s.drop_speed < ct - s.last_drop_time
    · rw [if_pos htd] at h
      exact attemptToDrop_wf nxt ct s s' h hw hp
    · rw [if_neg htd, Option.some.injEq] at h; subst h; exact hw

theorem update_wf (cmds : Commands) (ct : Int) (nxt : Shape) (s s' : GameState)
    (h : update cmds ct nxt s = some s')
    (hw : WFGrid s.grid) (hp : WFPiece s) : WFGrid s'.grid := by
  unfold update at h
  by_cases hgo : (s.game_over || s.is_paused) = true
  · rw [if_pos hgo, Option.some.injEq] at h; subst h; exact hw
  · rw [if_neg hgo] at h
    cases h1 : handleMoves ct cmds s with
    | none => simp only [h1] at h; exact Option.noConfusion h
    | some s1 =>
      simp only [h1] at h
      cases h2 : handleRotation ct cmds s1 with
      | none => simp only [h2] at h; exact Option.noConfusion h
      | some s2 =>
        simp only [h2] at h
        have hmf := handleMoves_fields ct cmds s s1 h1
        have hrf := handleRotation_fields ct cmds s1 s2 h2
        have hw2 : WFGrid s2.grid := by rw [hrf.1, hmf.1]; exact hw
        have hp2 : WFPiece s2 := by
          unfold WFPiece
          rw [hrf.2.1, hmf.2.1]
          exact hp
        exact handleAutomaticDrop_wf nxt ct cmds s2 s' h hw2 hp2

theorem resetGame_wf (sh : Shape) (s s' : GameState) (h : resetGame sh s = some s')
    (hw : WFGrid s.grid) : WFGrid s'.grid := by
  unfold resetGame at h
  cases hn : newTetrimino sh { s with score := 0, lines_cleared := 0, level := 1 } with
  | none => simp only [hn] at h; exact Option.noConfusion h
  | some s2 =>
    simp only [hn, Option.some.injEq] at h
    subst h
    obtain ⟨_, _, _, _, hg2, _, _, _, _⟩ := newTetrimino_some_fields sh _ s2 hn
    show WFGrid s2.grid
    rw [hg2]; exact hw

/-! ## C10: grid dimensions and cell values are invariant -/

/-- C10: locking a piece (with a catalog piece, `WFPiece`), clearing
lines, a whole per-frame update, and a reset all preserve the grid
invariant: exactly `GRID_HEIGHT` rows of `GRID_WIDTH` cells, every cell
value in `{0..7}`. -/
theorem grid_invariant_preserved :
    (∀ s s', placeTetrimino s = some s' →
        WFGrid s.grid → WFPiece s → WFGrid s'.grid) ∧
    (∀ s, WFGrid s.grid → WFGrid (clearLines s).grid) ∧
    (∀ (cmds : Commands) (ct : Int) (nxt : Shape) (s s' : GameState),
        update cmds ct nxt s = some s' →
        WFGrid s.grid → WFPiece s → WFGrid s'.grid) ∧
    (∀ (sh : Shape) (s s' : GameState),
        resetGame sh s = some s' → WFGrid s.grid → WFGrid s'.grid) :=
  ⟨fun s s' h hw hp => placeTetrimino_wf s s' h hw hp,
   fun s hw => clearLines_wf s hw,
   fun cmds ct nxt s s' h hw hp => update_wf cmds ct nxt s s' h hw hp,
   fun sh s s' h hw => resetGame_wf sh s s' h hw⟩

/-- An O-piece two rows above its resting place on an empty grid. -/
def C10state : GameState := { initState Shape.O 0 true with piece_row := 17 }

/-- The grid state after locking the piece of `C10state`. -/
def C10place : GameState := (placeTetrimino C10state).getD C10state

/-- The state after a full update frame at `C10state`. -/
def C10upd : GameState := (update noCommands 2000 Shape.O C10state).getD C10state

/-- The state after a reset at `C10state`. -/
def C10reset : GameState := (resetGame Shape.I C10state).getD C10state

/-- Witness for `grid_invariant_preserved` at concrete states. -/
theorem grid_invariant_preserved_witness :
    WFGrid C10place.grid ∧ WFGrid (clearLines C10state).grid ∧
    WFGrid C10upd.grid ∧ WFGrid C10reset.grid :=
  ⟨grid_invariant_preserved.1 C10state C10place (by decide) (by decide) (by decide),
   grid_invariant_preserved.2.1 C10state (by decide),
   grid_invariant_preserved.2.2.1 noCommands 2000 Shape.O C10state C10upd
     (by decide) (by decide) (by decide),
   grid_invariant_preserved.2.2.2 Shape.I C10state C10reset (by decide) (by decide)⟩


end Tetris
